import Mathlib

/-!
# Verification of the discord-summarizer conversation windowing engine

Shallow embedding of `src/discord_summarizer/bot.py` and
`src/discord_summarizer/llm.py`.  Timestamps are modelled as `Int`
seconds; `timedelta(minutes=15)` is `900`, `timedelta(hours=1)` is
`3600`, `timedelta(hours=3)` is `10800`.  Python exceptions are
modelled with `Except`; Python's distinction between the `int`
channel id and its `str(...)` form is modelled by the two-constructor
type `PyId`.
-/

namespace DiscordSummarizer

/-- Constant `START_DIFF = timedelta(minutes=15)`, in seconds. -/
def START_DIFF : Int := 900

/-- Constant `END_DIFF = timedelta(hours=1)`, in seconds. -/
def END_DIFF : Int := 3600

/-- Decidable equality for `Except`, used to evaluate the embedded
functions at concrete inputs. -/
instance {e a : Type} [DecidableEq e] [DecidableEq a] :
    DecidableEq (Except e a) := fun x y =>
  match x, y with
  | Except.error u, Except.error v =>
    if h : u = v then isTrue (by rw [h])
    else isFalse (fun hh => h (Except.error.inj hh))
  | Except.ok u, Except.ok v =>
    if h : u = v then isTrue (by rw [h])
    else isFalse (fun hh => h (Except.ok.inj hh))
  | Except.error _, Except.ok _ => isFalse (fun hh => Except.noConfusion hh)
  | Except.ok _, Except.error _ => isFalse (fun hh => Except.noConfusion hh)

/-- The `MessageData` dataclass (bot.py lines 17-25).  Field order matters:
`timestamp` is declared first so that the derived dataclass ordering is
lexicographic with `timestamp` as primary key. -/
structure MessageData where
  timestamp : Int
  id : Nat
  author : Nat
  content : String
  attachments : List String
deriving Repr, DecidableEq

/-- Placeholder message used with `List.getD` at indices that are in
bounds by construction. -/
def dummyMsg : MessageData := ⟨0, 0, 0, "", []⟩

/-- Lexicographic order on `List String`, as Python compares lists. -/
def listStrLE : List String → List String → Bool
  | [], _ => true
  | _ :: _, [] => false
  | a :: as, b :: bs =>
    if a < b then true else if b < a then false else listStrLE as bs

/-- The ordering `@dataclass(order=True)` derives for `MessageData`:
lexicographic on (timestamp, id, author, content, attachments). -/
def msgLE (a b : MessageData) : Bool :=
  if a.timestamp ≠ b.timestamp then decide (a.timestamp ≤ b.timestamp)
  else if a.id ≠ b.id then decide (a.id ≤ b.id)
  else if a.author ≠ b.author then decide (a.author ≤ b.author)
  else if a.content ≠ b.content then decide (a.content < b.content)
  else listStrLE a.attachments b.attachments

/-- Insert a message into an already sorted list. -/
def insertMsg (m : MessageData) : List MessageData → List MessageData
  | [] => [m]
  | x :: xs => if msgLE m x then m :: x :: xs else x :: insertMsg m xs

/-- Python `messages.sort()` under the dataclass order. -/
def sortMsgs : List MessageData → List MessageData
  | [] => []
  | x :: xs => insertMsg x (sortMsgs xs)

/-- The `ChannelStatus` dataclass (bot.py lines 28-33). -/
structure ChannelStatus where
  checked_at : Int
  active : Bool
deriving Repr, DecidableEq

/-- State carried through the chunking loop of `_fetch_message_history`
(bot.py lines 125-148): `conversation_chunks`, `current_chunk`,
`in_conversation` and `validate_stamp`. -/
structure ScanState where
  chunks : List (List MessageData)
  current : List MessageData
  inConv : Bool
  validateStamp : Option Int
deriving Repr, DecidableEq

/-- Python `current_chunk[-5]`: the fifth-from-end element of a list known to
have at least five elements. -/
def fifthFromEnd (l : List MessageData) : MessageData :=
  l.getD (l.length - 5) dummyMsg

/-- One iteration of the `for msg in messages` loop of
`_fetch_message_history` (bot.py lines 130-148), faithful to the source:
the start test fires when `current_chunk[-5].timestamp < msg.timestamp -
START_DIFF` and the idle test when `current_chunk[-5].timestamp >
msg.timestamp - END_DIFF`. -/
def scanStep (st : ScanState) (msg : MessageData) : ScanState :=
  let current := st.current ++ [msg]
  if current.length < 5 then
    { st with current := current }
  else if !st.inConv then
    if (fifthFromEnd current).timestamp < msg.timestamp - START_DIFF then
      let collapsed := current.drop (current.length - 5)
      { st with
        current := collapsed
        inConv := true
        validateStamp := some ((collapsed.headD dummyMsg).timestamp) }
    else
      { st with current := current }
  else
    if (fifthFromEnd current).timestamp > msg.timestamp - END_DIFF then
      { chunks := st.chunks ++ [current]
        current := []
        inConv := false
        validateStamp := some msg.timestamp }
    else
      { st with current := current }

/-- The whole chunking loop over a (sorted) message list. -/
def runScan (msgs : List MessageData) : ScanState :=
  msgs.foldl scanStep ⟨[], [], false, none⟩

/-- Result of one windowing evaluation: the replacement buffer, the
checkpoint write (`none` when line 151's `if validate_stamp:` guard
fails and nothing is stored), and the finalized chunks handed to the
summarizer. -/
structure EvalResult where
  buffer : List MessageData
  statusWrite : Option ChannelStatus
  chunks : List (List MessageData)
deriving Repr, DecidableEq

/-- The pure core of `_fetch_message_history` (bot.py lines 120-166)
applied to the prior buffer contents and the freshly fetched batch.
Line 120 extends the collection with the batch; when the batch has at
least 5 messages, lines 123-157 sort the batch (only the batch), scan
it, optionally store a new `ChannelStatus`, and replace the collection
entry by the final `current_chunk`. -/
def evalHistory (prior batch : List MessageData) : EvalResult :=
  if 5 ≤ batch.length then
    let st := runScan (sortMsgs batch)
    ⟨st.current, st.validateStamp.map (fun ts => ⟨ts, st.inConv⟩), st.chunks⟩
  else
    ⟨prior ++ batch, none, []⟩

/-- The `last_validated` dict.  Its Python keys are `str(channel.id)`;
since every reader and writer applies `str(...)` to the numeric id
uniformly, the map is keyed here by the numeric id. -/
abbrev LastValidated := List (Nat × ChannelStatus)

/-- Dict lookup: the value at the first (unique, for a Python dict)
occurrence of the key. -/
def lvLookup : LastValidated → Nat → Option ChannelStatus
  | [], _ => none
  | (k, v) :: rest, cid => if k = cid then some v else lvLookup rest cid

/-- Dict assignment `last_validated[str(cid)] = s`: replace the first
occurrence, or append a new entry. -/
def lvSet : LastValidated → Nat → ChannelStatus → LastValidated
  | [], cid, s => [(cid, s)]
  | (k, v) :: rest, cid, s =>
    if k = cid then (k, s) :: rest else (k, v) :: lvSet rest cid s

/-- The per-channel `message_collection` flattened over guilds:
channel id paired with its buffered messages. -/
abbrev Collection := List (Nat × List MessageData)

/-- Lookup in the message collection. -/
def collLookup : Collection → Nat → Option (List MessageData)
  | [], _ => none
  | (k, v) :: rest, cid => if k = cid then some v else collLookup rest cid

/-- Assignment `message_collection[gid][cid] = v` (defaultdict: inserts
when absent). -/
def collSet : Collection → Nat → List MessageData → Collection
  | [], cid, v => [(cid, v)]
  | (k, w) :: rest, cid, v =>
    if k = cid then (k, v) :: rest else (k, w) :: collSet rest cid v

/-- Deletion `del message_collection[gid][cid]` (removes the first
occurrence; the caller models the `KeyError` on a missing key). -/
def collErase : Collection → Nat → Collection
  | [], _ => []
  | (k, w) :: rest, cid =>
    if k = cid then rest else (k, w) :: collErase rest cid

/-- A Python value that is either an `int` channel id or its `str(...)`
form.  `str(n)` of distinct ids are distinct, and a string never equals
an int, which the two disjoint constructors capture. -/
inductive PyId where
  | int (n : Nat)
  | str (n : Nat)
deriving Repr, DecidableEq

/-- The whole mutable bot state that the claims touch:
`yaml_data.tracked_channels`, `yaml_data.last_validated`,
`message_collection`, plus an output log of every chunk handed to
`summarizer.summarize_messages` (channel id, chunk). -/
structure BotState where
  tracked : Option (List PyId)
  lv : LastValidated
  coll : Collection
  summarized : List (Nat × List MessageData)
deriving Repr, DecidableEq

/-- State effect of `_fetch_message_history` (bot.py lines 94-166) once
the network fetch is abstracted: `batch` is the message list the
`channel.history` iteration produced. -/
def fetchHistory (st : BotState) (cid : Nat) (batch : List MessageData) :
    BotState :=
  let prior := (collLookup st.coll cid).getD []
  let r := evalHistory prior batch
  { st with
    coll := collSet st.coll cid r.buffer
    lv := match r.statusWrite with
          | some s => lvSet st.lv cid s
          | none => st.lv
    summarized := st.summarized ++ r.chunks.map (fun c => (cid, c)) }

/-- The channel ids Python's sweep snapshot puts in `idle`
(bot.py lines 264-270). -/
def idleChannels (lv : LastValidated) : List Nat :=
  (lv.filter (fun p => !p.2.active)).map Prod.fst

/-- The channel ids Python's sweep snapshot puts in `active`
(bot.py lines 264-270). -/
def activeChannels (lv : LastValidated) : List Nat :=
  (lv.filter (fun p => p.2.active)).map Prod.fst

/-- Python's `messages = sorted(self.message_collection[gid][cid])`
inside the sweep. -/
def sweepMsgs (st : BotState) (cid : Nat) : List MessageData :=
  sortMsgs ((collLookup st.coll cid).getD [])

/-- The classification block of the sweep body (bot.py lines 275-296).
`idleL` and `activeL` are the snapshot lists, `tA = now - START_DIFF`,
`tI = now - END_DIFF`.  Attribute mutation
`last_validated[str(cid)].active = ...` is a lookup followed by a
replacement; a missing key raises `KeyError`, modelled as
`Except.error cid`. -/
def sweepClassify (idleL activeL : List Nat) (tA tI : Int) (st : BotState)
    (cid : Nat) : Except Nat BotState :=
  if cid ∈ idleL then
    if 5 ≤ (sweepMsgs st cid).length ∧
        tA < (fifthFromEnd (sweepMsgs st cid)).timestamp then
      match lvLookup st.lv cid with
      | none => Except.error cid
      | some s =>
        Except.ok { st with lv := lvSet st.lv cid ⟨s.checked_at, true⟩ }
    else Except.ok st
  else if cid ∈ activeL then
    if 5 ≤ (sweepMsgs st cid).length ∧
        (fifthFromEnd (sweepMsgs st cid)).timestamp < tI then
      match lvLookup st.lv cid with
      | none => Except.error cid
      | some s =>
        Except.ok { st with
          lv := lvSet st.lv cid ⟨s.checked_at, false⟩
          summarized := st.summarized ++ [(cid, sweepMsgs st cid)]
          coll := collSet st.coll cid [] }
    else Except.ok st
  else Except.ok st

/-- The per-channel sweep body: the classification block followed by
line 297's unconditional `checked_at` assignment. -/
def sweepOne (idleL activeL : List Nat) (tA tI : Int) (st : BotState)
    (cid : Nat) : Except Nat BotState :=
  match sweepClassify idleL activeL tA tI st cid with
  | Except.error e => Except.error e
  | Except.ok st1 =>
    match lvLookup st1.lv cid with
    | none => Except.error cid
    | some s => Except.ok { st1 with lv := lvSet st1.lv cid ⟨tA, s.active⟩ }

/-- The sweep loop over the channel-id list, aborting at the first
uncaught exception. -/
def sweepAll (idleL activeL : List Nat) (tA tI : Int) :
    List Nat → BotState → Except Nat BotState
  | [], st => Except.ok st
  | c :: rest, st =>
    match sweepOne idleL activeL tA tI st c with
    | Except.error e => Except.error e
    | Except.ok st1 => sweepAll idleL activeL tA tI rest st1

/-- The periodic sweep `check_conversations` (bot.py lines 260-301):
snapshot the idle/active classification, then run the per-channel body
over every channel id in the message collection.  The two
`datetime.now()` calls are modelled by one `now`.  An uncaught
exception in the body aborts the remaining iterations, exactly as in
the source, which has no per-channel containment. -/
def checkConversations (now : Int) (st : BotState) : Except Nat BotState :=
  sweepAll (idleChannels st.lv) (activeChannels st.lv)
    (now - START_DIFF) (now - END_DIFF) (st.coll.map Prod.fst) st

/-- Python `set.add(str(channel.id))`. -/
def trackedAdd (ts : List PyId) (x : PyId) : List PyId :=
  if x ∈ ts then ts else ts ++ [x]

/-- The `track_channel` coroutine (bot.py lines 168-208).  `now` feeds
`datetime.now()`, `batch` is what the enable-path backfill fetch
returns.  The disable path's `set.remove(channel.id)` cannot raise
(the guard at line 175 only lets it run when the int id is a member),
but `del self.message_collection[...][channel.id]` raises `KeyError`
when the channel has no collection entry. -/
def track_channel (now : Int) (st : BotState) (cid : Nat) (track : Bool)
    (batch : List MessageData) : Except Unit (BotState × Bool) :=
  match st.tracked with
  | none => Except.ok (st, false)
  | some ts =>
    if track = decide (PyId.int cid ∈ ts) then Except.ok (st, false)
    else if track then
      let fallback := now - 10800
      let tracked1 := some (trackedAdd ts (PyId.str cid))
      let lv1 :=
        match lvLookup st.lv cid with
        | none => lvSet st.lv cid ⟨fallback, false⟩
        | some s =>
          if s.checked_at < fallback then lvSet st.lv cid ⟨fallback, false⟩
          else st.lv
      let st1 := { st with tracked := tracked1, lv := lv1 }
      Except.ok (fetchHistory st1 cid batch, true)
    else
      match collLookup st.coll cid with
      | none => Except.error ()
      | some _ =>
        Except.ok
          ({ st with
             tracked := some (ts.filter (fun x => x ≠ PyId.int cid))
             coll := collErase st.coll cid }, true)

/-- The `on_message` listener (bot.py lines 338-370): drop the bot's own
messages, drop messages from untracked channels (the membership test
uses the *int* `message.channel.id`), append everything else to the
channel's buffer. -/
def on_message (st : BotState) (isSelf : Bool) (cid : Nat)
    (m : MessageData) : BotState :=
  if isSelf then st
  else
    match st.tracked with
    | some ts =>
      if PyId.int cid ∈ ts then
        { st with
          coll := collSet st.coll cid (((collLookup st.coll cid).getD []) ++ [m]) }
      else st
    | none =>
      { st with
        coll := collSet st.coll cid (((collLookup st.coll cid).getD []) ++ [m]) }

/-- What the LLM backend call produced: a raised exception, or a
response whose choices each carry `message.content` (possibly `None`). -/
inductive BackendResponse where
  | exn
  | resp (choices : List (Option String))
deriving Repr, DecidableEq

/-- The Python exceptions `summarize_messages` can let escape. -/
inductive PyError where
  | indexError
  | attributeError
  | ioError
deriving Repr, DecidableEq

/-- A line appended to the per-(server, channel) jsonl log:
the summary text and the last message timestamp. -/
structure LogEntry where
  server : String
  channel : String
  summary : String
  timestamp : Int
deriving Repr, DecidableEq

/-- The `Summarizer.summarize_messages` coroutine (llm.py lines 17-69).
`backend` abstracts `client.chat.completions.create` (only this call
sits inside the `try`), `appendOk` abstracts whether the jsonl append
succeeds.  Returns the appended log line, `none` when nothing was
appended; `Except.error` is an exception propagated to the caller:
`result.choices[0]` on an empty choice list, `.strip()` on a `None`
content, or a failing file append. -/
def summarize_messages (backend : BackendResponse) (appendOk : Bool)
    (channel_name server_name : String) (messages : List MessageData) :
    Except PyError (Option LogEntry) :=
  if messages.isEmpty then Except.ok none
  else
    let ms := sortMsgs messages
    match backend with
    | BackendResponse.exn => Except.ok none
    | BackendResponse.resp choices =>
      match choices with
      | [] => Except.error PyError.indexError
      | none :: _ => Except.error PyError.attributeError
      | some s :: _ =>
        if appendOk then
          Except.ok (some ⟨server_name, channel_name, s.trim,
            (ms.getLastD dummyMsg).timestamp⟩)
        else Except.error PyError.ioError

/-- Shorthand constructor for concrete test messages. -/
def msgA (t : Int) (i : Nat) : MessageData := ⟨t, i, 0, "", []⟩

/-- Scenario B of the spec: five messages one minute apart. -/
def denseBatch5 : List MessageData :=
  [msgA 0 1, msgA 60 2, msgA 120 3, msgA 180 4, msgA 240 5]

/-- Five messages whose window spans more than `START_DIFF`, which is
what actually fires the code's start test. -/
def sparseBatch5 : List MessageData :=
  [msgA 0 1, msgA 250 2, msgA 500 3, msgA 750 4, msgA 1000 5]

/-- The engine-activating batch followed by a message arriving with a
gap larger than `END_DIFF` from the fifth-from-end message. -/
def sparseBatch6 : List MessageData :=
  [msgA 0 1, msgA 250 2, msgA 500 3, msgA 750 4, msgA 1000 5, msgA 5000 6]

/-- The engine-activating batch followed by a message arriving with a
gap smaller than `END_DIFF` from the fifth-from-end message. -/
def denseFin6 : List MessageData :=
  [msgA 0 1, msgA 250 2, msgA 500 3, msgA 750 4, msgA 1000 5, msgA 1500 6]

/-- Invariant carried through the scan: the current chunk only holds
messages of `S`, and any recorded candidate stamp is the timestamp of a
message of `S`. -/
def ScanInv (S : List MessageData) (st : ScanState) : Prop :=
  (∀ m ∈ st.current, m ∈ S) ∧
  (∀ ts, st.validateStamp = some ts → ∃ m ∈ S, m.timestamp = ts)

/-! ## Helper lemmas -/

theorem length_insertMsg (m : MessageData) (l : List MessageData) :
    (insertMsg m l).length = l.length + 1 := by
  induction l with
  | nil => rfl
  | cons x xs ih =>
    simp only [insertMsg]
    split
    · simp
    · simp [ih]

theorem length_sortMsgs (l : List MessageData) :
    (sortMsgs l).length = l.length := by
  induction l with
  | nil => rfl
  | cons x xs ih => simp [sortMsgs, length_insertMsg, ih]

theorem mem_insertMsg {a m : MessageData} {l : List MessageData} :
    a ∈ insertMsg m l ↔ a = m ∨ a ∈ l := by
  induction l with
  | nil => simp [insertMsg]
  | cons x xs ih =>
    simp only [insertMsg]
    split
    · simp [List.mem_cons]
    · simp only [List.mem_cons, ih]
      tauto

theorem mem_sortMsgs {a : MessageData} {l : List MessageData} :
    a ∈ sortMsgs l ↔ a ∈ l := by
  induction l with
  | nil => simp [sortMsgs]
  | cons x xs ih => simp [sortMsgs, mem_insertMsg, ih]

theorem scanStep_of_stamp_none {st : ScanState} {m : MessageData}
    (h : (scanStep st m).validateStamp = none) :
    scanStep st m = { st with current := st.current ++ [m] } := by
  by_cases h1 : st.current.length + 1 < 5
  · simp [scanStep, h1]
  · by_cases h2 : st.inConv
    · by_cases h3 : m.timestamp - END_DIFF <
          (fifthFromEnd (st.current ++ [m])).timestamp
      · exfalso
        simp [scanStep, h1, h2, h3] at h
      · simp [scanStep, h1, h2, h3]
    · by_cases h3 : (fifthFromEnd (st.current ++ [m])).timestamp <
          m.timestamp - START_DIFF
      · exfalso
        simp [scanStep, h1, h2, h3] at h
      · simp [scanStep, h1, h2, h3]

theorem foldl_scan_of_stamp_none :
    ∀ (l : List MessageData) (st : ScanState),
      (l.foldl scanStep st).validateStamp = none →
      l.foldl scanStep st = { st with current := st.current ++ l } := by
  intro l
  induction l with
  | nil => intro st _; simp
  | cons x xs ih =>
    intro st h
    rw [List.foldl_cons] at h ⊢
    have h2 := ih (scanStep st x) h
    have h3 : (scanStep st x).validateStamp = none := by
      rw [h2] at h
      exact h
    rw [h2, scanStep_of_stamp_none h3]
    simp

/-- If the whole scan never classified, the final state is the initial
one with every message accumulated into the current chunk. -/
theorem runScan_of_stamp_none {l : List MessageData}
    (h : (runScan l).validateStamp = none) :
    runScan l = ⟨[], l, false, none⟩ := by
  have := foldl_scan_of_stamp_none l ⟨[], [], false, none⟩ h
  simpa [runScan] using this

/-- Branch equation: fewer than five accumulated messages
(bot.py lines 132-133). -/
theorem scanStep_small {st : ScanState} {msg : MessageData}
    (h1 : st.current.length + 1 < 5) :
    scanStep st msg = { st with current := st.current ++ [msg] } := by
  simp [scanStep, h1]

/-- Branch equation: the start test fires (bot.py lines 135-140). -/
theorem scanStep_start {st : ScanState} {msg : MessageData}
    (h1 : ¬ st.current.length + 1 < 5) (h2 : st.inConv = false)
    (h3 : (fifthFromEnd (st.current ++ [msg])).timestamp <
      msg.timestamp - START_DIFF) :
    scanStep st msg =
      { chunks := st.chunks
        current := (st.current ++ [msg]).drop ((st.current ++ [msg]).length - 5)
        inConv := true
        validateStamp := some (((st.current ++ [msg]).drop
          ((st.current ++ [msg]).length - 5)).headD dummyMsg).timestamp } := by
  have h1' : ¬ (st.current ++ [msg]).length < 5 := by
    simp only [List.length_append, List.length_cons, List.length_nil]
    omega
  simp only [scanStep, if_neg h1', h2, Bool.not_false, if_pos h3, if_true]

/-- Branch equation: the start test does not fire (bot.py line 135,
falling through). -/
theorem scanStep_start_skip {st : ScanState} {msg : MessageData}
    (h1 : ¬ st.current.length + 1 < 5) (h2 : st.inConv = false)
    (h3 : ¬ (fifthFromEnd (st.current ++ [msg])).timestamp <
      msg.timestamp - START_DIFF) :
    scanStep st msg = { st with current := st.current ++ [msg] } := by
  have h1' : ¬ (st.current ++ [msg]).length < 5 := by
    simp only [List.length_append, List.length_cons, List.length_nil]
    omega
  simp only [scanStep, if_neg h1', h2, Bool.not_false, if_neg h3, if_true]

/-- Branch equation: the idle test fires (bot.py lines 142-148). -/
theorem scanStep_finalize {st : ScanState} {msg : MessageData}
    (h1 : ¬ st.current.length + 1 < 5) (h2 : st.inConv = true)
    (h3 : (fifthFromEnd (st.current ++ [msg])).timestamp >
      msg.timestamp - END_DIFF) :
    scanStep st msg =
      { chunks := st.chunks ++ [st.current ++ [msg]]
        current := []
        inConv := false
        validateStamp := some msg.timestamp } := by
  have h1' : ¬ (st.current ++ [msg]).length < 5 := by
    simp only [List.length_append, List.length_cons, List.length_nil]
    omega
  simp only [scanStep, if_neg h1', h2, Bool.not_true, if_pos h3]
  simp

/-- Branch equation: the idle test does not fire (bot.py line 142,
falling through). -/
theorem scanStep_finalize_skip {st : ScanState} {msg : MessageData}
    (h1 : ¬ st.current.length + 1 < 5) (h2 : st.inConv = true)
    (h3 : ¬ (fifthFromEnd (st.current ++ [msg])).timestamp >
      msg.timestamp - END_DIFF) :
    scanStep st msg = { st with current := st.current ++ [msg] } := by
  have h1' : ¬ (st.current ++ [msg]).length < 5 := by
    simp only [List.length_append, List.length_cons, List.length_nil]
    omega
  simp only [scanStep, if_neg h1', h2, Bool.not_true, if_neg h3]
  simp

/-- The head of the last-five suffix of a list of length at least five
is an element of the list. -/
theorem headD_drop_mem {l : List MessageData} (h : 5 ≤ l.length) :
    (l.drop (l.length - 5)).headD dummyMsg ∈ l := by
  have hlen : (l.drop (l.length - 5)).length = 5 := by
    rw [List.length_drop]
    omega
  rcases hd : l.drop (l.length - 5) with _ | ⟨a, t⟩
  · rw [hd] at hlen
    simp at hlen
  · have : a ∈ l.drop (l.length - 5) := by
      rw [hd]
      exact List.mem_cons_self a t
    have := List.drop_subset _ _ this
    simpa [hd] using this

theorem scanStep_inv {S : List MessageData} {st : ScanState}
    {msg : MessageData} (hm : msg ∈ S) (h : ScanInv S st) :
    ScanInv S (scanStep st msg) := by
  obtain ⟨hcur, hstamp⟩ := h
  have happ : ∀ m ∈ st.current ++ [msg], m ∈ S := by
    intro m hmem
    rcases List.mem_append.mp hmem with h' | h'
    · exact hcur m h'
    · rcases List.mem_singleton.mp h' with rfl
      exact hm
  by_cases h1 : st.current.length + 1 < 5
  · rw [scanStep_small h1]
    exact ⟨happ, hstamp⟩
  · by_cases h2 : st.inConv
    · by_cases h3 : (fifthFromEnd (st.current ++ [msg])).timestamp >
          msg.timestamp - END_DIFF
      · rw [scanStep_finalize h1 h2 h3]
        refine ⟨by simp, ?_⟩
        intro ts hts
        rcases Option.some.inj hts with rfl
        exact ⟨msg, hm, rfl⟩
      · rw [scanStep_finalize_skip h1 h2 h3]
        exact ⟨happ, hstamp⟩
    · rw [Bool.not_eq_true] at h2
      by_cases h3 : (fifthFromEnd (st.current ++ [msg])).timestamp <
          msg.timestamp - START_DIFF
      · rw [scanStep_start h1 h2 h3]
        have hlen : 5 ≤ (st.current ++ [msg]).length := by
          simp only [List.length_append, List.length_cons, List.length_nil]
          omega
        refine ⟨?_, ?_⟩
        · intro m hmem
          exact happ m (List.drop_subset _ _ hmem)
        · intro ts hts
          rcases Option.some.inj hts with rfl
          exact ⟨_, happ _ (headD_drop_mem hlen), rfl⟩
      · rw [scanStep_start_skip h1 h2 h3]
        exact ⟨happ, hstamp⟩

theorem foldl_scan_inv {S : List MessageData} :
    ∀ (l : List MessageData) (st : ScanState), (∀ m ∈ l, m ∈ S) →
      ScanInv S st → ScanInv S (l.foldl scanStep st) := by
  intro l
  induction l with
  | nil => intro st _ h; simpa using h
  | cons x xs ih =>
    intro st hl h
    rw [List.foldl_cons]
    exact ih (scanStep st x) (fun m hm => hl m (List.mem_cons_of_mem _ hm))
      (scanStep_inv (hl x (List.mem_cons_self x xs)) h)

/-- Any candidate stamp the scan records is the timestamp of one of the
scanned messages. -/
theorem runScan_stamp_mem {l : List MessageData} {ts : Int}
    (h : (runScan l).validateStamp = some ts) :
    ∃ m ∈ l, m.timestamp = ts := by
  have hinv : ScanInv l (runScan l) :=
    foldl_scan_inv l ⟨[], [], false, none⟩ (fun m hm => hm)
      ⟨by simp, by simp⟩
  exact hinv.2 ts h

theorem lvLookup_lvSet_self (lv : LastValidated) (cid : Nat)
    (s : ChannelStatus) : lvLookup (lvSet lv cid s) cid = some s := by
  induction lv with
  | nil => simp [lvSet, lvLookup]
  | cons p rest ih =>
    obtain ⟨k, v⟩ := p
    by_cases hk : k = cid
    · simp [lvSet, lvLookup, hk]
    · simp [lvSet, lvLookup, hk, ih]

theorem lvLookup_lvSet_ne (lv : LastValidated) {cid k : Nat}
    (s : ChannelStatus) (h : k ≠ cid) :
    lvLookup (lvSet lv cid s) k = lvLookup lv k := by
  have h' : ¬ cid = k := fun hh => h hh.symm
  induction lv with
  | nil => simp [lvSet, lvLookup, h']
  | cons p rest ih =>
    obtain ⟨k1, v⟩ := p
    by_cases hk : k1 = cid
    · subst hk
      simp [lvSet, lvLookup, h']
    · by_cases hk2 : k1 = k
      · simp [lvSet, lvLookup, hk, hk2, h]
      · simp [lvSet, lvLookup, hk, hk2, ih]

theorem collLookup_collSet_self (coll : Collection) (cid : Nat)
    (v : List MessageData) :
    collLookup (collSet coll cid v) cid = some v := by
  induction coll with
  | nil => simp [collSet, collLookup]
  | cons p rest ih =>
    obtain ⟨k, w⟩ := p
    by_cases hk : k = cid
    · simp [collSet, collLookup, hk]
    · simp [collSet, collLookup, hk, ih]

theorem lvLookup_none_not_mem_idleChannels {lv : LastValidated} {cid : Nat}
    (h : lvLookup lv cid = none) : cid ∉ idleChannels lv := by
  induction lv with
  | nil => simp [idleChannels]
  | cons p rest ih =>
    obtain ⟨k, v⟩ := p
    by_cases hk : k = cid
    · simp [lvLookup, hk] at h
    · simp only [lvLookup, if_neg hk] at h
      simp only [idleChannels, List.filter_cons]
      intro hmem
      rcases hv : v.active with _ | _ <;> rw [hv] at hmem <;> simp at hmem
      · rcases hmem with h' | h'
        · exact hk h'.symm
        · exact ih h (by simpa [idleChannels] using h')
      · exact ih h (by simpa [idleChannels] using hmem)

theorem lvLookup_none_not_mem_activeChannels {lv : LastValidated} {cid : Nat}
    (h : lvLookup lv cid = none) : cid ∉ activeChannels lv := by
  induction lv with
  | nil => simp [activeChannels]
  | cons p rest ih =>
    obtain ⟨k, v⟩ := p
    by_cases hk : k = cid
    · simp [lvLookup, hk] at h
    · simp only [lvLookup, if_neg hk] at h
      simp only [activeChannels, List.filter_cons]
      intro hmem
      rcases hv : v.active with _ | _ <;> rw [hv] at hmem <;> simp at hmem
      · exact ih h (by simpa [activeChannels] using hmem)
      · rcases hmem with h' | h'
        · exact hk h'.symm
        · exact ih h (by simpa [activeChannels] using h')

theorem lvLookup_some_mem {lv : LastValidated} {cid : Nat}
    {s : ChannelStatus} (h : lvLookup lv cid = some s) : (cid, s) ∈ lv := by
  induction lv with
  | nil => simp [lvLookup] at h
  | cons p rest ih =>
    obtain ⟨k, v⟩ := p
    by_cases hk : k = cid
    · subst hk
      simp [lvLookup] at h
      subst h
      exact List.mem_cons_self _ _
    · simp only [lvLookup, if_neg hk] at h
      exact List.mem_cons_of_mem _ (ih h)

theorem mem_activeChannels_iff {lv : LastValidated} {cid : Nat} :
    cid ∈ activeChannels lv ↔
      ∃ p, p ∈ lv ∧ p.1 = cid ∧ p.2.active = true := by
  simp only [activeChannels, List.mem_map, List.mem_filter]
  constructor
  · rintro ⟨p, ⟨hp, hq⟩, rfl⟩
    exact ⟨p, hp, rfl, hq⟩
  · rintro ⟨p, hp, rfl, hq⟩
    exact ⟨p, ⟨hp, hq⟩, rfl⟩

theorem mem_idleChannels_iff {lv : LastValidated} {cid : Nat} :
    cid ∈ idleChannels lv ↔
      ∃ p, p ∈ lv ∧ p.1 = cid ∧ p.2.active = false := by
  simp only [idleChannels, List.mem_map, List.mem_filter]
  constructor
  · rintro ⟨p, ⟨hp, hq⟩, rfl⟩
    exact ⟨p, hp, rfl, by simpa using hq⟩
  · rintro ⟨p, hp, rfl, hq⟩
    exact ⟨p, ⟨hp, by simpa using hq⟩, rfl⟩

/-- In a map with no duplicate keys — a Python dict — a key determines
its value. -/
theorem nodup_keys_unique {lv : LastValidated}
    (hnd : (lv.map Prod.fst).Nodup) {cid : Nat} {a b : ChannelStatus}
    (ha : (cid, a) ∈ lv) (hb : (cid, b) ∈ lv) : a = b := by
  induction lv with
  | nil => simp at ha
  | cons p rest ih =>
    rw [List.map_cons, List.nodup_cons] at hnd
    rcases List.mem_cons.mp ha with h1 | h1 <;>
      rcases List.mem_cons.mp hb with h2 | h2
    · rw [← h2] at h1
      exact congrArg Prod.snd h1
    · exfalso
      apply hnd.1
      rw [← h1]
      simpa using List.mem_map_of_mem Prod.fst h2
    · exfalso
      apply hnd.1
      rw [← h2]
      simpa using List.mem_map_of_mem Prod.fst h1
    · exact ih hnd.2 h1 h2

theorem mem_activeChannels_of_lookup {lv : LastValidated} {cid : Nat}
    {s : ChannelStatus} (h : lvLookup lv cid = some s)
    (ha : s.active = true) : cid ∈ activeChannels lv :=
  mem_activeChannels_iff.mpr ⟨(cid, s), lvLookup_some_mem h, rfl, ha⟩

theorem not_mem_idleChannels_of_lookup {lv : LastValidated} {cid : Nat}
    {s : ChannelStatus} (hnd : (lv.map Prod.fst).Nodup)
    (h : lvLookup lv cid = some s) (ha : s.active = true) :
    cid ∉ idleChannels lv := by
  intro hmem
  rcases mem_idleChannels_iff.mp hmem with ⟨⟨c, v⟩, hp, hc, hv⟩
  rcases hc with rfl
  have hvs : v = s := nodup_keys_unique hnd hp (lvLookup_some_mem h)
  rw [hvs, ha] at hv
  exact Bool.true_eq_false.mp hv

theorem mem_trackedAdd {ts : List PyId} {x y : PyId} :
    x ∈ trackedAdd ts y ↔ x ∈ ts ∨ x = y := by
  unfold trackedAdd
  split
  · constructor
    · exact fun h => Or.inl h
    · intro h
      rcases h with h | rfl
      · exact h
      · assumption
  · simp

/-- A channel the snapshot classified neither idle nor active and that
has no `last_validated` entry makes the sweep body raise `KeyError` at
line 297. -/
theorem sweepOne_error_of_missing {idleL activeL : List Nat} {tA tI : Int}
    {st : BotState} {cid : Nat} (hni : cid ∉ idleL) (hna : cid ∉ activeL)
    (hnone : lvLookup st.lv cid = none) :
    sweepOne idleL activeL tA tI st cid = Except.error cid := by
  have hcl : sweepClassify idleL activeL tA tI st cid = Except.ok st := by
    simp [sweepClassify, hni, hna]
  simp [sweepOne, hcl, hnone]

/-- Branch equation: idle snapshot channel with a dense recent buffer
(bot.py lines 275-280). -/
theorem sweepClassify_idle_set {idleL activeL : List Nat} {tA tI : Int}
    {st : BotState} {cid : Nat} {s : ChannelStatus} (h1 : cid ∈ idleL)
    (h2 : 5 ≤ (sweepMsgs st cid).length ∧
      tA < (fifthFromEnd (sweepMsgs st cid)).timestamp)
    (hl : lvLookup st.lv cid = some s) :
    sweepClassify idleL activeL tA tI st cid =
      Except.ok { st with lv := lvSet st.lv cid ⟨s.checked_at, true⟩ } := by
  simp [sweepClassify, h1, h2, hl]

/-- Branch equation: idle snapshot channel whose buffer does not
qualify (bot.py line 278 false). -/
theorem sweepClassify_idle_skip {idleL activeL : List Nat} {tA tI : Int}
    {st : BotState} {cid : Nat} (h1 : cid ∈ idleL)
    (h2 : ¬ (5 ≤ (sweepMsgs st cid).length ∧
      tA < (fifthFromEnd (sweepMsgs st cid)).timestamp)) :
    sweepClassify idleL activeL tA tI st cid = Except.ok st := by
  simp only [sweepClassify, if_pos h1, if_neg h2]

/-- Branch equation: active snapshot channel with a stale buffer
(bot.py lines 281-296). -/
theorem sweepClassify_active_fin {idleL activeL : List Nat} (tA : Int)
    {tI : Int} {st : BotState} {cid : Nat} {s : ChannelStatus}
    (h1 : cid ∉ idleL) (h2 : cid ∈ activeL)
    (h3 : 5 ≤ (sweepMsgs st cid).length ∧
      (fifthFromEnd (sweepMsgs st cid)).timestamp < tI)
    (hl : lvLookup st.lv cid = some s) :
    sweepClassify idleL activeL tA tI st cid =
      Except.ok { st with
        lv := lvSet st.lv cid ⟨s.checked_at, false⟩
        summarized := st.summarized ++ [(cid, sweepMsgs st cid)]
        coll := collSet st.coll cid [] } := by
  simp [sweepClassify, h1, h2, h3, hl]

/-- Branch equation: active snapshot channel whose buffer does not
qualify (bot.py line 284 false). -/
theorem sweepClassify_active_skip {idleL activeL : List Nat} {tA tI : Int}
    {st : BotState} {cid : Nat} (h1 : cid ∉ idleL) (h2 : cid ∈ activeL)
    (h3 : ¬ (5 ≤ (sweepMsgs st cid).length ∧
      (fifthFromEnd (sweepMsgs st cid)).timestamp < tI)) :
    sweepClassify idleL activeL tA tI st cid = Except.ok st := by
  simp only [sweepClassify, if_neg h1, if_pos h2, if_neg h3]

/-- Branch equation: channel in neither snapshot list. -/
theorem sweepClassify_notmem {idleL activeL : List Nat} {tA tI : Int}
    {st : BotState} {cid : Nat} (h1 : cid ∉ idleL) (h2 : cid ∉ activeL) :
    sweepClassify idleL activeL tA tI st cid = Except.ok st := by
  simp only [sweepClassify, if_neg h1, if_neg h2]

theorem sweepClassify_lv {idleL activeL : List Nat} {tA tI : Int}
    {st st1 : BotState} {cid : Nat}
    (h : sweepClassify idleL activeL tA tI st cid = Except.ok st1) :
    st1.lv = st.lv ∨ ∃ s, st1.lv = lvSet st.lv cid s := by
  by_cases h1 : cid ∈ idleL
  · by_cases h2 : 5 ≤ (sweepMsgs st cid).length ∧
        tA < (fifthFromEnd (sweepMsgs st cid)).timestamp
    · cases hl : lvLookup st.lv cid with
      | none => simp [sweepClassify, h1, h2, hl] at h
      | some s =>
        rw [sweepClassify_idle_set h1 h2 hl] at h
        rcases Except.ok.inj h with rfl
        exact Or.inr ⟨_, rfl⟩
    · rw [sweepClassify_idle_skip h1 h2] at h
      rcases Except.ok.inj h with rfl
      exact Or.inl rfl
  · by_cases h2 : cid ∈ activeL
    · by_cases h3 : 5 ≤ (sweepMsgs st cid).length ∧
          (fifthFromEnd (sweepMsgs st cid)).timestamp < tI
      · cases hl : lvLookup st.lv cid with
        | none => simp [sweepClassify, h1, h2, h3, hl] at h
        | some s =>
          rw [sweepClassify_active_fin tA h1 h2 h3 hl] at h
          rcases Except.ok.inj h with rfl
          exact Or.inr ⟨_, rfl⟩
      · rw [sweepClassify_active_skip h1 h2 h3] at h
        rcases Except.ok.inj h with rfl
        exact Or.inl rfl
    · rw [sweepClassify_notmem h1 h2] at h
      rcases Except.ok.inj h with rfl
      exact Or.inl rfl

/-- A successful sweep body for channel `c` does not touch any other
channel's `last_validated` entry. -/
theorem sweepOne_lvLookup_preserved {idleL activeL : List Nat}
    {tA tI : Int} {st st' : BotState} {c : Nat}
    (h : sweepOne idleL activeL tA tI st c = Except.ok st') {k : Nat}
    (hk : k ≠ c) : lvLookup st'.lv k = lvLookup st.lv k := by
  unfold sweepOne at h
  cases hc : sweepClassify idleL activeL tA tI st c with
  | error e =>
    simp only [hc] at h
    exact absurd h (by simp)
  | ok st1 =>
    simp only [hc] at h
    cases hl : lvLookup st1.lv c with
    | none =>
      simp only [hl] at h
      exact absurd h (by simp)
    | some s =>
      simp only [hl] at h
      rcases Except.ok.inj h with rfl
      show lvLookup (lvSet st1.lv c ⟨tA, s.active⟩) k = lvLookup st.lv k
      rw [lvLookup_lvSet_ne _ _ hk]
      rcases sweepClassify_lv hc with heq | ⟨s2, heq⟩
      · rw [heq]
      · rw [heq, lvLookup_lvSet_ne _ _ hk]

theorem sweepAll_error_of_missing {idleL activeL : List Nat} {tA tI : Int}
    {k : Nat} (hni : k ∉ idleL) (hna : k ∉ activeL) :
    ∀ (l : List Nat) (st : BotState), k ∈ l → lvLookup st.lv k = none →
      ∃ e, sweepAll idleL activeL tA tI l st = Except.error e := by
  intro l
  induction l with
  | nil =>
    intro st hmem _
    simp at hmem
  | cons c rest ih =>
    intro st hmem hnone
    by_cases hck : c = k
    · subst hck
      rw [sweepAll, sweepOne_error_of_missing hni hna hnone]
      exact ⟨c, rfl⟩
    · rw [sweepAll]
      cases hs : sweepOne idleL activeL tA tI st c with
      | error e => exact ⟨e, rfl⟩
      | ok st1 =>
        have hnone1 : lvLookup st1.lv k = none := by
          rw [sweepOne_lvLookup_preserved hs (fun hkc => hck hkc.symm)]
          exact hnone
        have hmem1 : k ∈ rest := by
          rcases List.mem_cons.mp hmem with h' | h'
          · exact absurd h'.symm hck
          · exact h'
        exact ih st1 hmem1 hnone1

/-- Enabling tracking for a channel whose int id is not a member of
the Tracked-set stores the STRING form of the id (bot.py lines
181-201) and reports a change. -/
theorem track_channel_enable (now : Int) {st : BotState} {cid : Nat}
    (batch : List MessageData) {ts : List PyId} (h1 : st.tracked = some ts)
    (h2 : PyId.int cid ∉ ts) :
    ∃ st1, track_channel now st cid true batch = Except.ok (st1, true) ∧
      st1.tracked = some (trackedAdd ts (PyId.str cid)) := by
  have hd : decide (PyId.int cid ∈ ts) = false := decide_eq_false h2
  refine ⟨fetchHistory { st with
      tracked := some (trackedAdd ts (PyId.str cid))
      lv := match lvLookup st.lv cid with
            | none => lvSet st.lv cid ⟨now - 10800, false⟩
            | some s =>
              if s.checked_at < now - 10800 then
                lvSet st.lv cid ⟨now - 10800, false⟩
              else st.lv } cid batch, ?_, ?_⟩
  · simp only [track_channel, h1, hd]
    rfl
  · rfl

/-- Disabling tracking for a channel whose int id is not a member of
the Tracked-set is a no-op (bot.py lines 175-179): the guard reports
it already untracked. -/
theorem track_channel_disable_noop {now : Int} {st : BotState} {cid : Nat}
    {batch : List MessageData} {ts : List PyId} (h1 : st.tracked = some ts)
    (h2 : PyId.int cid ∉ ts) :
    track_channel now st cid false batch = Except.ok (st, false) := by
  have hd : decide (PyId.int cid ∈ ts) = false := decide_eq_false h2
  simp [track_channel, h1, hd]

/-- Adding the string form of an id never makes the int form a member. -/
theorem int_not_mem_trackedAdd_str {ts : List PyId} {cid : Nat}
    (h2 : PyId.int cid ∉ ts) :
    PyId.int cid ∉ trackedAdd ts (PyId.str cid) := by
  intro hmem
  rcases mem_trackedAdd.mp hmem with h | h
  · exact h2 h
  · exact PyId.noConfusion h

/-! ## Claims -/

/-- C1: the claim says a batch of five messages with strictly
increasing timestamps and consecutive gaps below `START_GAP` makes the
engine set `active := true` with `checked_at` the first message's
timestamp, emitting nothing and keeping all five buffered.  On the
code, the start test at bot.py line 135 fires only when the
five-message window spans MORE than `START_DIFF`, so Scenario B's
dense batch records no candidate stamp at all: the checkpoint write is
skipped entirely (`active` stays untouched) and the buffer keeps all
five.  This theorem evaluates the engine at the failing input. -/
theorem c1_dense_batch_never_classifies :
    evalHistory [] denseBatch5 =
      ⟨denseBatch5, none, []⟩ := by
  rfl

/-- C2: the claim says that in the active state a gap above `END_GAP`
between the fifth-from-end message and a new message `m` finalizes one
chunk that excludes `m`, leaving `[m]` buffered.  On the code the idle
test at bot.py line 142 is inverted: with `sparseBatch6` the gap is
4750 s > `END_DIFF` yet nothing is finalized (the scan stays active and
keeps all six messages), while with `denseFin6` the gap is 1250 s <
`END_DIFF` yet the chunk IS finalized — and it contains `m` itself,
with the buffer left empty rather than `[m]`. -/
theorem c2_end_gap_test_inverted :
    (evalHistory [] sparseBatch6).chunks = [] ∧
    (evalHistory [] sparseBatch6).statusWrite = some ⟨0, true⟩ ∧
    (evalHistory [] sparseBatch6).buffer = sparseBatch6 ∧
    (evalHistory [] denseFin6).chunks = [denseFin6] ∧
    (evalHistory [] denseFin6).buffer = [] ∧
    (evalHistory [] denseFin6).statusWrite = some ⟨1500, false⟩ := by
  exact ⟨rfl, rfl, rfl, rfl, rfl, rfl⟩

/-- C3 counterexample: an evaluation whose batch has at least five
messages scans ONLY the new batch and replaces the buffer with the
batch's tail, silently discarding the previously buffered unresolved
message `msgA 10 99` without ever emitting it in a chunk. -/
theorem c3_prior_buffer_message_discarded :
    msgA 10 99 ∉ (evalHistory [msgA 10 99] denseBatch5).buffer ∧
    (evalHistory [msgA 10 99] denseBatch5).chunks = [] := by
  exact ⟨by decide, rfl⟩

/-- C3 amended: the windowing scan operates only over the newly
fetched batch, sorted; when the batch has at least five messages the
result — replacement buffer, checkpoint write and chunks — is entirely
independent of the prior buffer contents (which are discarded), and
when the batch has fewer than five messages it is merely appended to
the prior buffer with no other effect. -/
theorem c3_scan_uses_only_new_batch
    (prior prior2 batch : List MessageData) :
    (5 ≤ batch.length → evalHistory prior batch = evalHistory prior2 batch) ∧
    (batch.length < 5 → evalHistory prior batch = ⟨prior ++ batch, none, []⟩) := by
  constructor
  · intro h
    simp [evalHistory, h]
  · intro h
    have h2 : ¬ 5 ≤ batch.length := by omega
    simp [evalHistory, h2]

/-- C3 witness: the amended statement evaluated at a concrete large
batch and at a concrete small batch. -/
theorem c3_scan_uses_only_new_batch_witness :
    evalHistory [msgA 10 99] denseBatch5 = evalHistory [] denseBatch5 ∧
    evalHistory [msgA 10 99] [msgA 20 1] =
      ⟨[msgA 10 99] ++ [msgA 20 1], none, []⟩ := by
  exact ⟨(c3_scan_uses_only_new_batch [msgA 10 99] [] denseBatch5).1 (by decide),
    (c3_scan_uses_only_new_batch [msgA 10 99] [] [msgA 20 1]).2 (by decide)⟩

/-- C4 counterexample: an invocation that records no candidate
checkpoint timestamp (the status write is skipped) nevertheless
replaces the Buffer: the prior buffer `[msgA 10 99]` is neither kept
nor merely extended, so Checkpoint and Buffer are not mutated
atomically together. -/
theorem c4_checkpoint_kept_buffer_replaced :
    (evalHistory [msgA 10 99] denseBatch5).statusWrite = none ∧
    (evalHistory [msgA 10 99] denseBatch5).buffer ≠ [msgA 10 99] ∧
    (evalHistory [msgA 10 99] denseBatch5).buffer ≠
      [msgA 10 99] ++ denseBatch5 := by
  exact ⟨rfl, by decide, by decide⟩

/-- C4 amended: an invocation that records no candidate checkpoint
timestamp leaves the Checkpoint unwritten and emits no chunk, but does
NOT leave the Buffer unchanged: with a batch of at least five messages
the Buffer is still replaced by the sorted batch (discarding the prior
contents); only a smaller batch merely extends the Buffer. -/
theorem c4_no_commit_keeps_checkpoint_not_buffer
    (prior batch : List MessageData)
    (h : (evalHistory prior batch).statusWrite = none) :
    (evalHistory prior batch).chunks = [] ∧
    (evalHistory prior batch).buffer =
      (if 5 ≤ batch.length then sortMsgs batch else prior ++ batch) := by
  by_cases h5 : 5 ≤ batch.length
  · have hsw : (runScan (sortMsgs batch)).validateStamp = none := by
      have h' := h
      simp only [evalHistory, if_pos h5] at h'
      exact Option.map_eq_none'.mp h'
    have hrs := runScan_of_stamp_none hsw
    simp [evalHistory, h5, hrs]
  · simp [evalHistory, h5]

/-- C4 witness: the amended statement evaluated at the concrete
counterexample input. -/
theorem c4_no_commit_keeps_checkpoint_not_buffer_witness :
    (evalHistory [msgA 10 99] denseBatch5).chunks = [] ∧
    (evalHistory [msgA 10 99] denseBatch5).buffer =
      (if 5 ≤ denseBatch5.length then sortMsgs denseBatch5
       else [msgA 10 99] ++ denseBatch5) := by
  exact c4_no_commit_keeps_checkpoint_not_buffer [msgA 10 99] denseBatch5 rfl

/-- C5 counterexample: the sweep sets every swept channel's
`checked_at` to `now - START_DIFF` unconditionally (bot.py line 297),
so a channel whose `checked_at` equals `now` is moved BACKWARDS by 900
seconds — `checked_at` is not monotonically non-decreasing across the
reconciler sweep. -/
theorem c5_sweep_regresses_checked_at :
    checkConversations 10000 ⟨none, [(7, ⟨10000, false⟩)], [(7, [])], []⟩ =
      Except.ok ⟨none, [(7, ⟨9100, false⟩)], [(7, [])], []⟩ ∧
    (9100 : Int) < 10000 := by
  exact ⟨rfl, by decide⟩

/-- C5 amended: `checked_at` is strictly advanced by every
windowing-engine commit — any committed status carries the timestamp
of some message of the batch, so when every fetched message is newer
than a bound (as backfill guarantees, fetching only after the old
`checked_at`), the committed `checked_at` exceeds that bound; the
reconciler sweep, by contrast, can move `checked_at` backwards to
`now - START_DIFF`. -/
theorem c5_engine_commit_advances_checked_at (c : Int)
    (prior batch : List MessageData) (s' : ChannelStatus)
    (hgt : ∀ m ∈ batch, c < m.timestamp)
    (hw : (evalHistory prior batch).statusWrite = some s') :
    c < s'.checked_at := by
  by_cases h5 : 5 ≤ batch.length
  · simp only [evalHistory, if_pos h5] at hw
    rcases Option.map_eq_some'.mp hw with ⟨ts, hts, hfs⟩
    rcases hfs with rfl
    rcases runScan_stamp_mem hts with ⟨m, hm, hmts⟩
    rw [← hmts]
    exact hgt m (mem_sortMsgs.mp hm)
  · simp [evalHistory, h5] at hw

/-- C5 witness: the amended statement evaluated at the concrete
activating batch with bound `-1`. -/
theorem c5_engine_commit_advances_checked_at_witness :
    ∃ s', (evalHistory [] sparseBatch5).statusWrite = some s' ∧
      (-1 : Int) < s'.checked_at := by
  refine ⟨⟨0, true⟩, rfl, ?_⟩
  exact c5_engine_commit_advances_checked_at (-1) [] sparseBatch5 ⟨0, true⟩
    (by decide) rfl

/-- C6: a swept channel whose snapshot classification is active (its
checkpoint entry carries `active = true`, unique per dict key) and
whose buffer holds at least five messages with the fifth-from-end
timestamp older than `now - END_DIFF` is finalized by the sweep body:
the ENTIRE sorted buffer is handed to the summarizer as one chunk, the
buffer is cleared to `[]`, and the checkpoint becomes
`⟨tA, false⟩` (inactive, with line 297's `checked_at = now -
START_DIFF`) — with no new triggering message involved. -/
theorem c6_sweep_finalizes_stale_active_channel (st : BotState)
    (cid : Nat) (t0 tA tI : Int) (msgs : List MessageData)
    (hnd : (st.lv.map Prod.fst).Nodup)
    (hlv : lvLookup st.lv cid = some ⟨t0, true⟩)
    (hc : collLookup st.coll cid = some msgs)
    (hlen : 5 ≤ msgs.length)
    (hts : (fifthFromEnd (sortMsgs msgs)).timestamp < tI) :
    ∃ st', sweepOne (idleChannels st.lv) (activeChannels st.lv) tA tI st cid
        = Except.ok st' ∧
      st'.summarized = st.summarized ++ [(cid, sortMsgs msgs)] ∧
      collLookup st'.coll cid = some [] ∧
      lvLookup st'.lv cid = some ⟨tA, false⟩ := by
  have hni : cid ∉ idleChannels st.lv :=
    not_mem_idleChannels_of_lookup hnd hlv rfl
  have ha : cid ∈ activeChannels st.lv :=
    mem_activeChannels_of_lookup hlv rfl
  have hsw : sweepMsgs st cid = sortMsgs msgs := by
    simp [sweepMsgs, hc]
  have h3 : 5 ≤ (sweepMsgs st cid).length ∧
      (fifthFromEnd (sweepMsgs st cid)).timestamp < tI := by
    rw [hsw]
    exact ⟨by rw [length_sortMsgs]; exact hlen, hts⟩
  have hcl := sweepClassify_active_fin tA hni ha h3 hlv
  refine ⟨{ st with
      lv := lvSet (lvSet st.lv cid ⟨t0, false⟩) cid ⟨tA, false⟩
      summarized := st.summarized ++ [(cid, sortMsgs msgs)]
      coll := collSet st.coll cid [] }, ?_, rfl, ?_, ?_⟩
  · simp only [sweepOne, hcl, hsw]
    rw [lvLookup_lvSet_self]
  · exact collLookup_collSet_self st.coll cid []
  · exact lvLookup_lvSet_self _ cid ⟨tA, false⟩

/-- C6 witness: the sweep body evaluated on a concrete one-channel
state, active since timestamp 0, swept at `now = 100000`. -/
theorem c6_sweep_finalizes_stale_active_channel_witness :
    ∃ st', sweepOne (idleChannels [(7, ⟨0, true⟩)])
        (activeChannels [(7, ⟨0, true⟩)]) 99100 96400
        ⟨none, [(7, ⟨0, true⟩)], [(7, denseBatch5)], []⟩ 7
        = Except.ok st' ∧
      st'.summarized = [] ++ [(7, sortMsgs denseBatch5)] ∧
      collLookup st'.coll 7 = some [] ∧
      lvLookup st'.lv 7 = some ⟨99100, false⟩ := by
  exact c6_sweep_finalizes_stale_active_channel
    ⟨none, [(7, ⟨0, true⟩)], [(7, denseBatch5)], []⟩ 7 0 99100 96400
    denseBatch5 (by decide) rfl rfl (by decide) (by decide)

/-- C7 counterexample: a sweep over a state holding two channels —
channel 1 present in the message collection but absent from
`last_validated`, channel 2 active with a stale five-message buffer
that the sweep would finalize — aborts with the `KeyError` from
channel 1 (bot.py line 297): the failure halts the loop and channel 2
is never processed, contradicting the claimed containment. -/
theorem c7_one_channel_failure_aborts_sweep :
    checkConversations 100000
      ⟨none, [(2, ⟨0, true⟩)], [(1, [msgA 0 9]), (2, denseBatch5)], []⟩ =
      Except.error 1 := by
  rfl

/-- C7 amended: the sweep loop has NO per-channel error containment: a
channel present in the message collection but missing from the
checkpoint map makes the whole sweep abort with an error, so a failure
in one channel's unit of work does halt the processing of the
remaining channels.  (Only the history-fetch step of a windowing
evaluation is contained per channel, by the try/except at bot.py
lines 101-119.) -/
theorem c7_missing_checkpoint_halts_sweep (now : Int) (st : BotState)
    (k : Nat) (hk : k ∈ st.coll.map Prod.fst)
    (hnone : lvLookup st.lv k = none) :
    ∃ e, checkConversations now st = Except.error e := by
  unfold checkConversations
  exact sweepAll_error_of_missing
    (lvLookup_none_not_mem_idleChannels hnone)
    (lvLookup_none_not_mem_activeChannels hnone)
    (st.coll.map Prod.fst) st hk hnone

/-- C7 witness: the amended statement applied to a concrete state with
a channel missing its checkpoint entry. -/
theorem c7_missing_checkpoint_halts_sweep_witness :
    ∃ e, checkConversations 50000
      ⟨none, [(2, ⟨0, false⟩)], [(9, [msgA 0 9]), (2, [])], []⟩ =
      Except.error e := by
  exact c7_missing_checkpoint_halts_sweep 50000
    ⟨none, [(2, ⟨0, false⟩)], [(9, [msgA 0 9]), (2, [])], []⟩ 9
    (by decide) rfl

/-- C8 counterexample: enabling tracking for channel 5 stores the
string id, so the subsequent disable finds the int id absent and
returns unchanged (False): the Tracked-set still holds the string id,
the Buffer entry is still present, and the `last_validated` entry is
still present — nothing was removed or discarded. -/
theorem c8_enable_then_disable_retains_state :
    ∃ st1, track_channel 0 ⟨some [], [], [], []⟩ 5 true [] =
        Except.ok (st1, true) ∧
      track_channel 0 st1 5 false [] = Except.ok (st1, false) ∧
      st1.tracked = some [PyId.str 5] ∧
      lvLookup st1.lv 5 = some ⟨-10800, false⟩ ∧
      collLookup st1.coll 5 = some [] := by
  exact ⟨⟨some [PyId.str 5], [(5, ⟨-10800, false⟩)], [(5, [])], []⟩,
    by decide, by decide, rfl, rfl, rfl⟩

/-- C8 amended: for a channel enabled via `track_channel` (which
stores the string form of the id), disabling tracking is a silent
no-op: the guard at bot.py line 175 tests the int id, finds it absent,
and returns False with the Tracked-set, Buffer and Checkpoint all left
exactly as they were after enabling. -/
theorem c8_disable_after_enable_is_noop (now now2 : Int) (st : BotState)
    (ts : List PyId) (cid : Nat) (batch batch2 : List MessageData)
    (h1 : st.tracked = some ts) (h2 : PyId.int cid ∉ ts) :
    ∃ st1, track_channel now st cid true batch = Except.ok (st1, true) ∧
      track_channel now2 st1 cid false batch2 = Except.ok (st1, false) := by
  rcases track_channel_enable now batch h1 h2 with
    ⟨st1, he, ht⟩
  exact ⟨st1, he,
    track_channel_disable_noop ht (int_not_mem_trackedAdd_str h2)⟩

/-- C8 witness: the amended statement at a concrete fresh state. -/
theorem c8_disable_after_enable_is_noop_witness :
    ∃ st1, track_channel 0 ⟨some [], [], [], []⟩ 5 true [] =
        Except.ok (st1, true) ∧
      track_channel 0 st1 5 false [] = Except.ok (st1, false) := by
  exact c8_disable_after_enable_is_noop 0 0 ⟨some [], [], [], []⟩ [] 5 [] []
    rfl (by decide)

/-- C9 counterexample: a response whose first choice has `None`
content makes `summarize_messages` raise (`.strip()` on `None`,
llm.py line 61, outside any try/except): the error propagates to the
caller, contradicting the claim that all internal errors are caught. -/
theorem c9_parse_error_propagates :
    summarize_messages (BackendResponse.resp [none]) true "chan" "serv"
      [msgA 0 1] = Except.error PyError.attributeError := by
  rfl

/-- C9 amended: only the backend call itself is guarded (llm.py lines
54-58): a failing backend call is caught and logged, appends nothing
and raises nothing; but an error while parsing the response or while
appending to the per-(server, channel) log file is NOT caught and
propagates to the caller. -/
theorem c9_only_backend_errors_contained (appendOk : Bool)
    (ch sv : String) (msgs : List MessageData) (s : String) :
    summarize_messages BackendResponse.exn appendOk ch sv msgs =
      Except.ok none ∧
    (msgs ≠ [] → summarize_messages (BackendResponse.resp [none]) appendOk
      ch sv msgs = Except.error PyError.attributeError) ∧
    (msgs ≠ [] → summarize_messages (BackendResponse.resp [some s]) false
      ch sv msgs = Except.error PyError.ioError) := by
  refine ⟨?_, ?_, ?_⟩
  · by_cases h : msgs.isEmpty <;> simp [summarize_messages, h]
  · intro h
    cases msgs with
    | nil => exact absurd rfl h
    | cons a l => simp [summarize_messages]
  · intro h
    cases msgs with
    | nil => exact absurd rfl h
    | cons a l => simp [summarize_messages]

/-- C9 witness: the amended statement evaluated at a singleton message
list. -/
theorem c9_only_backend_errors_contained_witness :
    summarize_messages BackendResponse.exn true "chan" "serv" [msgA 0 1] =
      Except.ok none ∧
    summarize_messages (BackendResponse.resp [none]) true "chan" "serv"
      [msgA 0 1] = Except.error PyError.attributeError ∧
    summarize_messages (BackendResponse.resp [some "ok"]) false "chan"
      "serv" [msgA 0 1] = Except.error PyError.ioError := by
  have h := c9_only_backend_errors_contained true "chan" "serv" [msgA 0 1] "ok"
  exact ⟨h.1, h.2.1 (by decide), h.2.2 (by decide)⟩

/-- C10: in whitelist mode, enabling tracking for a previously
untracked channel stores the STRING form of the id, while `on_message`
tests membership of the INT id; consequently a live message arriving
on the newly enabled channel fails the membership test and the state —
in particular every buffer — is left completely unchanged. -/
theorem c10_enabled_channel_still_drops_messages (now : Int)
    (st : BotState) (ts : List PyId) (cid : Nat)
    (batch : List MessageData) (m : MessageData)
    (h1 : st.tracked = some ts) (h2 : PyId.int cid ∉ ts) :
    ∃ st1, track_channel now st cid true batch = Except.ok (st1, true) ∧
      st1.tracked = some (trackedAdd ts (PyId.str cid)) ∧
      on_message st1 false cid m = st1 := by
  rcases track_channel_enable now batch h1 h2 with
    ⟨st1, he, ht⟩
  refine ⟨st1, he, ht, ?_⟩
  simp [on_message, ht, int_not_mem_trackedAdd_str h2]

/-- C10 witness: the theorem applied to a concrete fresh state and a
concrete live message. -/
theorem c10_enabled_channel_still_drops_messages_witness :
    ∃ st1, track_channel 0 ⟨some [], [], [], []⟩ 5 true [] =
        Except.ok (st1, true) ∧
      st1.tracked = some (trackedAdd [] (PyId.str 5)) ∧
      on_message st1 false 5 (msgA 3 1) = st1 := by
  exact c10_enabled_channel_still_drops_messages 0 ⟨some [], [], [], []⟩
    [] 5 [] (msgA 3 1) rfl (by decide)

end DiscordSummarizer
